import Mathlib

/-!
Formal model of the startup configuration resolution code in
`cmd/common-main.go` of the minio repository slice: directory resolution,
domain validation, public-address resolution, KMS backend selection and
TLS certificate topology scanning.  Pure Go helpers are translated
directly; filesystem, network and library collaborators
(`filepath.Abs`, `os.Stat`, `net.LookupHost`, `kms.Parse`, ...) are
passed in as explicit oracle parameters so that the control flow of the
source functions is preserved exactly.
-/

/-! ### String helpers (models of Go `strings` operations) -/

/-- Model of Go byte-lexicographic string comparison (`a <= b` for
`sort.Strings`).  UTF-8 byte order coincides with code-point order, so
comparing the character lists lexicographically is faithful. -/
def lexLe : List Char → List Char → Bool
  | [], _ => true
  | _ :: _, [] => false
  | a :: as, b :: bs => if a = b then lexLe as bs else decide (a < b)

def strLe (a b : String) : Bool := lexLe a.data b.data

/-- Insert a string into an already sorted list, keeping the order. -/
def insertSorted (s : String) : List String → List String
  | [] => [s]
  | x :: xs => if strLe s x then s :: x :: xs else x :: insertSorted s xs

/-- Model of Go `sort.Strings` (lexicographic byte order). -/
def sortStrings (l : List String) : List String := l.foldr insertSorted []

/-- Model of Go `strings.HasPrefix(s, "..")`: the first two characters
are dots ('.' is a single UTF-8 byte, so byte and character views
agree). -/
def startsWithDotDot (s : String) : Bool := decide (s.data.take 2 = ['.', '.'])

def splitCharsAux (sep : Char) : List Char → List Char → List (List Char)
  | [], acc => [acc.reverse]
  | c :: cs, acc =>
    if c = sep then acc.reverse :: splitCharsAux sep cs []
    else splitCharsAux sep cs (c :: acc)

/-- Model of Go `strings.Split(s, sep)` for a one-character separator
(the configured value separator of the repository is the one-character
string ","). -/
def splitValue (sep : Char) (s : String) : List String :=
  (splitCharsAux sep s.data []).map String.mk

/-- Model of Go `strings.SplitN(s, sep, 2)` for a one-character
separator: `none` when the separator does not occur (Go returns a
one-element slice), `some (before, after)` when it does (Go returns a
two-element slice). -/
def splitN2Chars (sep : Char) : List Char → Option (List Char × List Char)
  | [] => none
  | c :: cs =>
    if c = sep then some ([], cs)
    else
      match splitN2Chars sep cs with
      | none => none
      | some (a, b) => some (c :: a, b)

/-! ### DomainValidator (`handleCommonEnvVars`, lines 264-281)

`lcpSuffix` lives outside this slice of the repository.
Modelled from the spec: "compute the longest common suffix string shared
across *all* domains in the sorted set (not pairwise)". -/

/-- Longest common prefix of two character lists. -/
def commonPrefixChars : List Char → List Char → List Char
  | a :: as, b :: bs => if a = b then a :: commonPrefixChars as bs else []
  | _, _ => []

/-- Longest common suffix of two strings. -/
def commonSuffix2 (a b : String) : String :=
  String.mk ((commonPrefixChars a.data.reverse b.data.reverse).reverse)

/-- Modelled from the spec: `lcpSuffix` (defined elsewhere in the
repository) returns the longest common suffix string shared across all
strings of the list; folding the binary longest-common-suffix realises
that. -/
def lcpSuffix : List String → String
  | [] => ""
  | s :: rest => rest.foldl commonSuffix2 s

inductive DomainErr where
  | invalidDomain (d : String)
  | overlappingDomains (ds : List String)
deriving DecidableEq

/-- First pass of the domain loop: fatal on the first syntactically
invalid domain (`dns2.IsDomainName`, an external collaborator, is the
`isDomainName` oracle). -/
def checkDomainSyntax (isDomainName : String → Bool) : List String → Except DomainErr Unit
  | [] => .ok ()
  | d :: ds =>
    if isDomainName d then checkDomainSyntax isDomainName ds
    else .error (.invalidDomain d)

/-- Model of the `MINIO_DOMAIN` handling in `handleCommonEnvVars`
(lines 264-281), applied to the already split token list: validate every
domain, sort, compute the longest common suffix of the sorted set, and
fail when some domain equals that suffix while the set has more than one
member. -/
def domainOverlapCond (sorted : List String) : Bool :=
  sorted.any (fun d => d == lcpSuffix sorted && decide (1 < sorted.length))

def validateDomainList (isDomainName : String → Bool) (tokens : List String) :
    Except DomainErr (List String) :=
  match checkDomainSyntax isDomainName tokens with
  | .error e => .error e
  | .ok _ =>
    if domainOverlapCond (sortStrings tokens) then
      .error (.overlappingDomains (sortStrings tokens))
    else
      .ok (sortStrings tokens)

theorem checkDomainSyntax_ok (isDN : String → Bool) (l : List String)
    (hv : ∀ d ∈ l, isDN d = true) : checkDomainSyntax isDN l = .ok () := by
  induction l with
  | nil => rfl
  | cons d ds ih =>
    simp only [checkDomainSyntax, hv d (List.mem_cons_self d ds), if_true]
    exact ih fun x hx => hv x (List.mem_cons_of_mem d hx)

/-- C2: for every non-empty list of syntactically valid domains, the
validator sorts them and fails with the overlap error exactly when the
longest common suffix of the sorted set equals one of its members and
the set has more than one member; otherwise it succeeds with the sorted
list.  The two concrete examples of the spec are included. -/
theorem domain_overlap_check (isDN : String → Bool) (l : List String)
    (hne : l ≠ []) (hv : ∀ d ∈ l, isDN d = true) :
    (validateDomainList isDN l = .error (.overlappingDomains (sortStrings l)) ↔
      (lcpSuffix (sortStrings l) ∈ sortStrings l ∧ 1 < (sortStrings l).length))
    ∧ (¬(lcpSuffix (sortStrings l) ∈ sortStrings l ∧ 1 < (sortStrings l).length) →
        validateDomainList isDN l = .ok (sortStrings l))
    ∧ validateDomainList (fun _ => true) ["eu.example.com", "example.com"]
        = .error (.overlappingDomains ["eu.example.com", "example.com"])
    ∧ validateDomainList (fun _ => true) ["a.example.com", "b.example.com"]
        = .ok ["a.example.com", "b.example.com"] := by
  have hsyn := checkDomainSyntax_ok isDN l hv
  have hcond : domainOverlapCond (sortStrings l) = true ↔
      (lcpSuffix (sortStrings l) ∈ sortStrings l ∧ 1 < (sortStrings l).length) := by
    simp only [domainOverlapCond, List.any_eq_true, Bool.and_eq_true, beq_iff_eq,
      decide_eq_true_eq]
    constructor
    · rintro ⟨d, hd, rfl, hlen⟩
      exact ⟨hd, hlen⟩
    · rintro ⟨hmem, hlen⟩
      exact ⟨lcpSuffix (sortStrings l), hmem, rfl, hlen⟩
  refine ⟨?_, ?_, rfl, rfl⟩
  · unfold validateDomainList
    rw [hsyn]
    by_cases hb : domainOverlapCond (sortStrings l) = true
    · rw [if_pos hb]
      exact ⟨fun _ => hcond.mp hb, fun _ => rfl⟩
    · rw [if_neg hb]
      constructor
      · intro he
        cases he
      · intro hh
        exact absurd (hcond.mpr hh) hb
  · intro h
    unfold validateDomainList
    rw [hsyn, if_neg (fun hb => h (hcond.mp hb))]

/-- Witness for C2 at the spec's first example. -/
theorem domain_overlap_check_witness :
    validateDomainList (fun _ => true) ["eu.example.com", "example.com"]
      = .error (.overlappingDomains ["eu.example.com", "example.com"]) :=
  (domain_overlap_check (fun _ => true) ["eu.example.com", "example.com"]
    (by decide) (fun _ _ => rfl)).2.2.1

/-! ### DirectoryResolver (`newConfigDirFromCtx`, lines 154-193)

The CLI context is modelled by the three queries the source makes of it
(`ctx.IsSet`/`ctx.String`, `ctx.GlobalIsSet`/`ctx.GlobalString`,
`ctx.Parent().GlobalIsSet`/`ctx.Parent().GlobalString`).
`filepath.Abs` and `mkdirAllIgnorePerm` are filesystem collaborators
passed as oracles.  Modelled from the spec: `mkdirAllIgnorePerm`
(defined elsewhere in the repository) creates the directory, ignoring
permission-inheritance errors; any failure it reports is fatal. -/

structure CtxOption where
  localSet : Bool
  localVal : String
  globalSet : Bool
  globalVal : String
  parentGlobalSet : Bool
  parentGlobalVal : String
deriving DecidableEq

structure FSOps where
  abs : String → Except String String
  mkdirAll : String → Except String Unit

inductive DirErr where
  | optionMustBeProvided
  | emptyDirectory
  | absFailed (e : String)
  | mkdirFailed (e : String)
deriving DecidableEq

/-- The `switch` statement of `newConfigDirFromCtx`: pick the directory
value and whether it was explicitly set. -/
def resolveDirCore (ctx : CtxOption) (getDefaultDir : Unit → String) :
    Except DirErr (String × Bool) :=
  if ctx.localSet then .ok (ctx.localVal, true)
  else if ctx.globalSet then
    if ctx.globalVal == "" || ctx.globalVal == getDefaultDir () then
      if ctx.parentGlobalSet then .ok (ctx.parentGlobalVal, true)
      else .ok (ctx.globalVal, false)
    else .ok (ctx.globalVal, true)
  else
    if getDefaultDir () == "" then .error .optionMustBeProvided
    else .ok (getDefaultDir (), false)

/-- Model of `newConfigDirFromCtx`: precedence resolution followed by
the empty-directory check, absolute-path conversion and directory
creation, each fatal on failure. -/
def newConfigDirFromCtx (fs : FSOps) (ctx : CtxOption) (getDefaultDir : Unit → String) :
    Except DirErr (String × Bool) :=
  match resolveDirCore ctx getDefaultDir with
  | .error e => .error e
  | .ok (dir, dirSet) =>
    if dir == "" then .error .emptyDirectory
    else
      match fs.abs dir with
      | .error e => .error (.absFailed e)
      | .ok dirAbs =>
        match fs.mkdirAll dirAbs with
        | .error e => .error (.mkdirFailed e)
        | .ok _ => .ok (dirAbs, dirSet)

/-- C3: precedence of the directory resolver — the immediate command
scope wins; an enclosing-scope value equal to the default (or empty) is
demoted to non-explicit and the parent scope is consulted; otherwise the
default provider is used, fatally when it yields the empty string.  The
two concrete examples of the spec are the last two conjuncts. -/
theorem configdir_precedence (fs : FSOps) (ctx : CtxOption) (d : Unit → String)
    (habs : ∀ s, fs.abs s = .ok s) (hmk : ∀ s, fs.mkdirAll s = .ok ()) :
    (ctx.localSet = true → ctx.localVal ≠ "" →
      newConfigDirFromCtx fs ctx d = .ok (ctx.localVal, true))
    ∧ (ctx.localSet = false → ctx.globalSet = true → ctx.globalVal ≠ "" →
        ctx.globalVal ≠ d () →
        newConfigDirFromCtx fs ctx d = .ok (ctx.globalVal, true))
    ∧ (ctx.localSet = false → ctx.globalSet = true → ctx.globalVal = d () →
        ctx.globalVal ≠ "" → ctx.parentGlobalSet = false →
        newConfigDirFromCtx fs ctx d = .ok (ctx.globalVal, false))
    ∧ (ctx.localSet = false → ctx.globalSet = true →
        (ctx.globalVal = "" ∨ ctx.globalVal = d ()) → ctx.parentGlobalSet = true →
        ctx.parentGlobalVal ≠ "" →
        newConfigDirFromCtx fs ctx d = .ok (ctx.parentGlobalVal, true))
    ∧ (ctx.localSet = false → ctx.globalSet = false → d () ≠ "" →
        newConfigDirFromCtx fs ctx d = .ok (d (), false))
    ∧ (ctx.localSet = false → ctx.globalSet = false → d () = "" →
        newConfigDirFromCtx fs ctx d = .error .optionMustBeProvided)
    ∧ newConfigDirFromCtx fs ⟨true, "/a", true, "/b", false, ""⟩ (fun _ => "/b")
        = .ok ("/a", true)
    ∧ newConfigDirFromCtx fs ⟨false, "", true, "/b", false, ""⟩ (fun _ => "/b")
        = .ok ("/b", false) := by
  refine ⟨?_, ?_, ?_, ?_, ?_, ?_, ?_, ?_⟩
  · intro h1 h2
    simp [newConfigDirFromCtx, resolveDirCore, h1, h2, habs, hmk]
  · intro h1 h2 h3 h4
    simp [newConfigDirFromCtx, resolveDirCore, h1, h2, h3, h4, habs, hmk]
  · intro h1 h2 h3 h4 h5
    have h4d : d () ≠ "" := h3 ▸ h4
    simp [newConfigDirFromCtx, resolveDirCore, h1, h2, h3, h4, h4d, h5, habs, hmk]
  · intro h1 h2 h3 h4 h5
    rcases h3 with h3 | h3 <;>
      simp [newConfigDirFromCtx, resolveDirCore, h1, h2, h3, h4, h5, habs, hmk]
  · intro h1 h2 h3
    simp [newConfigDirFromCtx, resolveDirCore, h1, h2, h3, habs, hmk]
  · intro h1 h2 h3
    simp [newConfigDirFromCtx, resolveDirCore, h1, h2, h3, habs, hmk]
  · simp [newConfigDirFromCtx, resolveDirCore, habs, hmk]
  · simp [newConfigDirFromCtx, resolveDirCore, habs, hmk]

/-- Witness for C3: the local flag wins at the spec's example input. -/
theorem configdir_precedence_witness :
    newConfigDirFromCtx ⟨fun s => .ok s, fun _ => .ok ()⟩
      ⟨true, "/a", true, "/b", false, ""⟩ (fun _ => "/b") = .ok ("/a", true) :=
  (configdir_precedence ⟨fun s => .ok s, fun _ => .ok ()⟩
      ⟨true, "/a", true, "/b", false, ""⟩ (fun _ => "/b")
      (fun _ => rfl) (fun _ => rfl)).1 rfl (by decide)

/-! ### Config/certs/CA directory wiring (`handleCommonCmdArgs`, lines 228-243) -/

def joinPath (a b : String) : String := a ++ "/" ++ b

def certsDirName : String := "certs"

def certsCADirName : String := "CAs"

structure CmdDirs where
  configDir : String
  certsDir : String
  certsCADir : String
deriving DecidableEq

/-- Model of the directory block of `handleCommonCmdArgs`: resolve the
config and certs directories, let the certs directory inherit
`<configDir>/certs` when it was not explicitly set while the config
directory was, derive `<certsDir>/CAs`, and create the CA directory
(fatal on failure). -/
def handleCommonCmdArgsDirs (fs : FSOps) (ctxConfig ctxCerts : CtxOption)
    (defaultConfigDir defaultCertsDir : Unit → String) : Except DirErr CmdDirs :=
  match newConfigDirFromCtx fs ctxConfig defaultConfigDir with
  | .error e => .error e
  | .ok (configDir, configSet) =>
    match newConfigDirFromCtx fs ctxCerts defaultCertsDir with
    | .error e => .error e
    | .ok (certsDir0, certsSet) =>
      let certsDir := if !certsSet && configSet then joinPath configDir certsDirName
                      else certsDir0
      match fs.mkdirAll (joinPath certsDir certsCADirName) with
      | .error e => .error (.mkdirFailed e)
      | .ok _ => .ok ⟨configDir, certsDir, joinPath certsDir certsCADirName⟩

/-- C8: when the certs-directory option was not explicitly set but the
config-directory option was, the certs directory becomes
`<configDir>/certs`; in every successful startup the CA directory is
`<certsDir>/CAs` and its creation succeeded; a CA-directory creation
failure is fatal. -/
theorem certsdir_inherits_configdir (fs : FSOps) (ctxC ctxX : CtxOption)
    (dC dX : Unit → String) :
    (∀ c cs, newConfigDirFromCtx fs ctxC dC = .ok (c, true) →
      newConfigDirFromCtx fs ctxX dX = .ok (cs, false) →
      fs.mkdirAll (joinPath (joinPath c certsDirName) certsCADirName) = .ok () →
      handleCommonCmdArgsDirs fs ctxC ctxX dC dX
        = .ok ⟨c, joinPath c certsDirName, joinPath (joinPath c certsDirName) certsCADirName⟩)
    ∧ (∀ r, handleCommonCmdArgsDirs fs ctxC ctxX dC dX = .ok r →
        r.certsCADir = joinPath r.certsDir certsCADirName
        ∧ fs.mkdirAll r.certsCADir = .ok ())
    ∧ (∀ c b cs b2 e, newConfigDirFromCtx fs ctxC dC = .ok (c, b) →
        newConfigDirFromCtx fs ctxX dX = .ok (cs, b2) →
        fs.mkdirAll (joinPath (if !b2 && b then joinPath c certsDirName else cs)
          certsCADirName) = .error e →
        handleCommonCmdArgsDirs fs ctxC ctxX dC dX = .error (.mkdirFailed e)) := by
  refine ⟨?_, ?_, ?_⟩
  · intro c cs h1 h2 h3
    simp [handleCommonCmdArgsDirs, h1, h2, h3]
  · intro r hr
    unfold handleCommonCmdArgsDirs at hr
    rcases hcfg : newConfigDirFromCtx fs ctxC dC with e | ⟨c, b⟩ <;> rw [hcfg] at hr
    · cases hr
    rcases hcrt : newConfigDirFromCtx fs ctxX dX with e | ⟨cs, b2⟩ <;> rw [hcrt] at hr
    · cases hr
    rcases hmk : fs.mkdirAll
        (joinPath (if !b2 && b then joinPath c certsDirName else cs) certsCADirName)
        with e | u <;> simp only [hmk] at hr
    · cases hr
    cases hr
    cases u
    exact ⟨rfl, hmk⟩
  · intro c b cs b2 e h1 h2 h3
    simp only [handleCommonCmdArgsDirs, h1, h2]
    rw [h3]

/-- Witness for C8: a certs directory left to its default is replaced by
`<configDir>/certs` when the config directory was explicitly set. -/
theorem certsdir_inherits_configdir_witness :
    handleCommonCmdArgsDirs ⟨fun s => .ok s, fun _ => .ok ()⟩
      ⟨true, "/cfg", false, "", false, ""⟩ ⟨false, "", false, "", false, ""⟩
      (fun _ => "/defcfg") (fun _ => "/defcerts")
      = .ok ⟨"/cfg", "/cfg/certs", "/cfg/certs/CAs"⟩ :=
  (certsdir_inherits_configdir ⟨fun s => .ok s, fun _ => .ok ()⟩
      ⟨true, "/cfg", false, "", false, ""⟩ ⟨false, "", false, "", false, ""⟩
      (fun _ => "/defcfg") (fun _ => "/defcerts")).1 "/cfg" "/defcerts" rfl rfl rfl

/-! ### AddressSetResolver (`handleCommonEnvVars`, lines 283-300)

`set.StringSet` is modelled as a duplicate-free list with
membership-guarded insertion; `net.ParseIP` and `net.LookupHost` are
network collaborators passed as oracles.  The function models the branch
taken when `MINIO_PUBLIC_IPS` is non-empty, producing the set handed to
`updateDomainIPs`. -/

/-- Model of `set.StringSet.Add`: insert when absent. -/
def setAdd (s : List String) (x : String) : List String :=
  if x ∈ s then s else s ++ [x]

inductive AddrErr where
  | lookupFailed (endpoint : String) (e : String)
deriving DecidableEq

structure NetOps where
  parseIP : String → Bool
  lookupHost : String → Except String (List String)

/-- One iteration of the `minioEndpoints` loop: literal IPs are added
directly; other tokens are resolved (fatal on failure) with every
resolved address added; the raw token itself is always added last. -/
def processEndpoint (net : NetOps) (s : List String) (endpoint : String) :
    Except AddrErr (List String) :=
  if net.parseIP endpoint then .ok (setAdd s endpoint)
  else
    match net.lookupHost endpoint with
    | .error e => .error (.lookupFailed endpoint e)
    | .ok addrs => .ok (setAdd (addrs.foldl setAdd s) endpoint)

def resolveEndpointList (net : NetOps) (s : List String) :
    List String → Except AddrErr (List String)
  | [] => .ok s
  | ep :: rest =>
    match processEndpoint net s ep with
    | .error e => .error e
    | .ok s2 => resolveEndpointList net s2 rest

/-- Model of the explicit `MINIO_PUBLIC_IPS` path: split the raw value
on the separator and process every token starting from the empty set. -/
def resolvePublicIPs (net : NetOps) (sep : Char) (publicIPs : String) :
    Except AddrErr (List String) :=
  resolveEndpointList net [] (splitValue sep publicIPs)

theorem mem_setAdd_self (s : List String) (x : String) : x ∈ setAdd s x := by
  unfold setAdd
  split
  · assumption
  · exact List.mem_append.mpr (Or.inr (List.mem_singleton.mpr rfl))

theorem mem_setAdd_of_mem {s : List String} {x y : String} (h : y ∈ s) :
    y ∈ setAdd s x := by
  unfold setAdd
  split
  · exact h
  · exact List.mem_append.mpr (Or.inl h)

theorem nodup_setAdd (s : List String) (x : String) (h : s.Nodup) :
    (setAdd s x).Nodup := by
  unfold setAdd
  split
  · exact h
  · rename_i hx
    refine List.Nodup.append h (List.nodup_singleton x) ?_
    intro a ha hax
    rw [List.mem_singleton] at hax
    exact hx (hax ▸ ha)

theorem mem_foldl_setAdd_of_mem (l : List String) (s : List String) (y : String)
    (h : y ∈ s) : y ∈ l.foldl setAdd s := by
  induction l generalizing s with
  | nil => exact h
  | cons a as ih => exact ih _ (mem_setAdd_of_mem h)

theorem mem_foldl_setAdd_self (l : List String) (s : List String) (y : String)
    (h : y ∈ l) : y ∈ l.foldl setAdd s := by
  induction l generalizing s with
  | nil => cases h
  | cons a as ih =>
    rcases List.mem_cons.mp h with rfl | h2
    · exact mem_foldl_setAdd_of_mem as _ y (mem_setAdd_self s y)
    · exact ih _ h2

theorem nodup_foldl_setAdd (l : List String) (s : List String) (h : s.Nodup) :
    (l.foldl setAdd s).Nodup := by
  induction l generalizing s with
  | nil => exact h
  | cons a as ih => exact ih _ (nodup_setAdd s a h)

theorem processEndpoint_mono {net : NetOps} {s s2 : List String} {ep y : String}
    (h : processEndpoint net s ep = .ok s2) (hy : y ∈ s) : y ∈ s2 := by
  unfold processEndpoint at h
  split at h
  · cases h
    exact mem_setAdd_of_mem hy
  · split at h
    · cases h
    · cases h
      exact mem_setAdd_of_mem (mem_foldl_setAdd_of_mem _ _ _ hy)

theorem processEndpoint_self {net : NetOps} {s s2 : List String} {ep : String}
    (h : processEndpoint net s ep = .ok s2) : ep ∈ s2 := by
  unfold processEndpoint at h
  split at h
  · cases h
    exact mem_setAdd_self _ _
  · split at h
    · cases h
    · cases h
      exact mem_setAdd_self _ _

theorem processEndpoint_addrs {net : NetOps} {s s2 : List String} {ep : String}
    (hip : net.parseIP ep = false) (h : processEndpoint net s ep = .ok s2) :
    ∃ addrs, net.lookupHost ep = .ok addrs ∧ ∀ a ∈ addrs, a ∈ s2 := by
  unfold processEndpoint at h
  rw [hip] at h
  simp only [Bool.false_eq_true, if_false] at h
  split at h
  · cases h
  · cases h
    rename_i addrs heq
    exact ⟨addrs, heq, fun a ha =>
      mem_setAdd_of_mem (mem_foldl_setAdd_self _ _ _ ha)⟩

theorem processEndpoint_nodup {net : NetOps} {s s2 : List String} {ep : String}
    (hs : s.Nodup) (h : processEndpoint net s ep = .ok s2) : s2.Nodup := by
  unfold processEndpoint at h
  split at h
  · cases h
    exact nodup_setAdd _ _ hs
  · split at h
    · cases h
    · cases h
      exact nodup_setAdd _ _ (nodup_foldl_setAdd _ _ hs)

theorem resolveEndpointList_mono {net : NetOps} {toks : List String}
    {s r : List String} {y : String}
    (h : resolveEndpointList net s toks = .ok r) (hy : y ∈ s) : y ∈ r := by
  induction toks generalizing s with
  | nil =>
    cases h
    exact hy
  | cons ep rest ih =>
    unfold resolveEndpointList at h
    split at h
    · cases h
    · rename_i s2 heq
      exact ih h (processEndpoint_mono heq hy)

theorem resolveEndpointList_tokens {net : NetOps} {toks : List String}
    {s r : List String} (h : resolveEndpointList net s toks = .ok r) :
    ∀ t ∈ toks, t ∈ r := by
  induction toks generalizing s with
  | nil => intro t ht; cases ht
  | cons ep rest ih =>
    intro t ht
    unfold resolveEndpointList at h
    split at h
    · cases h
    · rename_i s2 heq
      rcases List.mem_cons.mp ht with rfl | h2
      · exact resolveEndpointList_mono h (processEndpoint_self heq)
      · exact ih h t h2

theorem resolveEndpointList_addrs {net : NetOps} {toks : List String}
    {s r : List String} (h : resolveEndpointList net s toks = .ok r) :
    ∀ t ∈ toks, net.parseIP t = false →
      ∃ addrs, net.lookupHost t = .ok addrs ∧ ∀ a ∈ addrs, a ∈ r := by
  induction toks generalizing s with
  | nil => intro t ht; cases ht
  | cons ep rest ih =>
    intro t ht hip
    unfold resolveEndpointList at h
    split at h
    · cases h
    · rename_i s2 heq
      rcases List.mem_cons.mp ht with rfl | h2
      · rcases processEndpoint_addrs hip heq with ⟨addrs, ha, hin⟩
        exact ⟨addrs, ha, fun a haa => resolveEndpointList_mono h (hin a haa)⟩
      · exact ih h t h2 hip

theorem resolveEndpointList_nodup {net : NetOps} {toks : List String}
    {s r : List String} (hs : s.Nodup)
    (h : resolveEndpointList net s toks = .ok r) : r.Nodup := by
  induction toks generalizing s with
  | nil =>
    cases h
    exact hs
  | cons ep rest ih =>
    unfold resolveEndpointList at h
    split at h
    · cases h
    · rename_i s2 heq
      exact ih (processEndpoint_nodup hs heq) h

/-- C9: with explicit public-address input, every literal-IP token is in
the resulting set, every non-IP token is resolved with all resolved
addresses in the set, a resolution failure makes the whole resolution
fatal, and the resulting set is duplicate-free. -/
theorem public_ips_resolution (net : NetOps) (sep : Char) (raw : String) :
    (∀ r, resolvePublicIPs net sep raw = .ok r →
      (∀ t ∈ splitValue sep raw, net.parseIP t = true → t ∈ r)
      ∧ (∀ t ∈ splitValue sep raw, net.parseIP t = false →
          ∃ addrs, net.lookupHost t = .ok addrs ∧ ∀ a ∈ addrs, a ∈ r)
      ∧ r.Nodup)
    ∧ (∀ t ∈ splitValue sep raw, ∀ e, net.parseIP t = false →
        net.lookupHost t = .error e →
        ∃ fe, resolvePublicIPs net sep raw = .error fe) := by
  constructor
  · intro r hr
    exact ⟨fun t ht _ => resolveEndpointList_tokens hr t ht,
      fun t ht hip => resolveEndpointList_addrs hr t ht hip,
      resolveEndpointList_nodup List.nodup_nil hr⟩
  · intro t ht e hip hlk
    rcases hres : resolvePublicIPs net sep raw with fe | r
    · exact ⟨fe, rfl⟩
    · rcases resolveEndpointList_addrs hres t ht hip with ⟨addrs, ha, _⟩
      rw [hlk] at ha
      cases ha

/-- C10: the loop adds every raw token itself to the set (line 298 runs
for every token, after the hostname branch), so hostname strings appear
verbatim in the resulting set next to the addresses they resolved to. -/
theorem public_ips_tokens_verbatim (net : NetOps) (sep : Char) (raw : String) :
    ∀ r, resolvePublicIPs net sep raw = .ok r →
      ∀ t ∈ splitValue sep raw, t ∈ r :=
  fun _ hr => resolveEndpointList_tokens hr

/-- Concrete network oracle for the public-address witnesses: one
literal IP and one resolvable hostname. -/
def pubIPNet : NetOps where
  parseIP := fun s => s == "1.2.3.4"
  lookupHost := fun h =>
    if h == "host.example" then .ok ["5.6.7.8"] else .error "no such host"

theorem pubIPNet_eval :
    resolvePublicIPs pubIPNet ',' "1.2.3.4,host.example"
      = .ok ["1.2.3.4", "5.6.7.8", "host.example"] := rfl

/-- Witness for C9: at the concrete input, the literal IP is in the set,
the hostname's resolved address is in the set, and the set is
duplicate-free. -/
theorem public_ips_resolution_witness :
    "1.2.3.4" ∈ (["1.2.3.4", "5.6.7.8", "host.example"] : List String)
    ∧ (∃ addrs, pubIPNet.lookupHost "host.example" = .ok addrs
        ∧ ∀ a ∈ addrs, a ∈ (["1.2.3.4", "5.6.7.8", "host.example"] : List String))
    ∧ (["1.2.3.4", "5.6.7.8", "host.example"] : List String).Nodup := by
  have h := (public_ips_resolution pubIPNet ',' "1.2.3.4,host.example").1
    ["1.2.3.4", "5.6.7.8", "host.example"] pubIPNet_eval
  exact ⟨h.1 "1.2.3.4" (by decide) rfl,
    h.2.1 "host.example" (by decide) rfl, h.2.2⟩

/-- Witness for C10: the hostname token itself ends up in the set. -/
theorem public_ips_tokens_verbatim_witness :
    "host.example" ∈ (["1.2.3.4", "5.6.7.8", "host.example"] : List String) :=
  public_ips_tokens_verbatim pubIPNet ',' "1.2.3.4,host.example"
    ["1.2.3.4", "5.6.7.8", "host.example"] pubIPNet_eval "host.example" (by decide)

/-! ### KMSResolver (`handleCommonEnvVars`, lines 334-385)

Environment variables are modelled as `Option String` (`env.IsSet` is
`isSome`, `env.Get k d` is `getD d`).  The library parsers
(`kms.Parse`, `hex.DecodeString`, `kms.New`, `crypto.ParseKESEndpoints`,
`crypto.NewKes`) live outside this slice; they are oracles whose only
observable behaviour here is success or failure, which is all the
source's control flow consumes. -/

structure KMSEnv where
  kmsSecretKey : Option String
  kmsMasterKey : Option String
  kesEndpoint : Option String
  kesKeyName : Option String
  kesClientCert : Option String
  kesClientKey : Option String
  kesServerCA : Option String

structure KesConfig where
  endpoints : List String
  defaultKeyID : String
  certFile : String
  keyFile : String
  caPath : String
deriving DecidableEq

structure KMSOps where
  kmsParse : String → Bool
  hexDecode : String → Option (List Nat)
  kmsNew : String → List Nat → Bool
  parseKESEndpoints : String → Option (List String)
  newKes : KesConfig → Bool

inductive KMSFatal where
  | ambiguous
  | secretParse
  | masterKeyFormat
  | masterKeyHex
  | masterKeyNew
  | kesEndpointsParse
  | kesNew
deriving DecidableEq

inductive KMSOutcome where
  | noKMS
  | staticSecret (key : String)
  | legacyMasterKey (keyID : String) (rawKey : List Nat)
  | remoteEndpoint (cfg : KesConfig)
deriving DecidableEq

/-- Model of the KMS block of `handleCommonEnvVars` (lines 334-385),
following the source line by line: the duplicated ambiguity `if`, the
ambiguity `switch`, the secret-key / legacy-master-key assignment of
`GlobalKMS`, and the final independent `if` that overwrites `GlobalKMS`
with the KES backend.  The deprecation warning of the legacy branch is
non-fatal and not tracked. -/
def resolveKMS (ops : KMSOps) (certsCADir : String) (env : KMSEnv) :
    Except KMSFatal KMSOutcome :=
  if env.kmsSecretKey.isSome && env.kesEndpoint.isSome then
    .error .ambiguous
  else if env.kmsSecretKey.isSome && env.kesEndpoint.isSome then
    .error .ambiguous
  else if env.kmsMasterKey.isSome && env.kesEndpoint.isSome then
    .error .ambiguous
  else
    let base : Except KMSFatal KMSOutcome :=
      if env.kmsSecretKey.isSome then
        if ops.kmsParse (env.kmsSecretKey.getD "") then
          .ok (.staticSecret (env.kmsSecretKey.getD ""))
        else .error .secretParse
      else if env.kmsMasterKey.isSome then
        match splitN2Chars ':' (env.kmsMasterKey.getD "").data with
        | none => .error .masterKeyFormat
        | some (idChars, keyChars) =>
          match ops.hexDecode (String.mk keyChars) with
          | none => .error .masterKeyHex
          | some secretKey =>
            if ops.kmsNew (String.mk idChars) secretKey then
              .ok (.legacyMasterKey (String.mk idChars) secretKey)
            else .error .masterKeyNew
      else .ok .noKMS
    match base with
    | .error e => .error e
    | .ok kms0 =>
      if env.kesEndpoint.isSome then
        match ops.parseKESEndpoints (env.kesEndpoint.getD "") with
        | none => .error .kesEndpointsParse
        | some eps =>
          let cfg : KesConfig :=
            { endpoints := eps
              defaultKeyID := env.kesKeyName.getD ""
              certFile := env.kesClientCert.getD ""
              keyFile := env.kesClientKey.getD ""
              caPath := env.kesServerCA.getD certsCADir }
          if ops.newKes cfg then .ok (.remoteEndpoint cfg) else .error .kesNew
      else .ok kms0

def isStaticOutcome : KMSOutcome → Bool
  | .staticSecret _ => true
  | _ => false

def isLegacyOutcome : KMSOutcome → Bool
  | .legacyMasterKey _ _ => true
  | _ => false

def isRemoteOutcome : KMSOutcome → Bool
  | .remoteEndpoint _ => true
  | _ => false

def isNoneOutcome : KMSOutcome → Bool
  | .noKMS => true
  | _ => false

/-- C1: both ambiguous signal combinations (static secret + remote
endpoint, legacy master key + remote endpoint) terminate fatally with
the ambiguous-configuration error; every non-fatal resolution produces
exactly one of the four outcomes, and which one is fully determined by
the three signals. -/
theorem kms_resolution_exclusive (ops : KMSOps) (ca : String) (env : KMSEnv) :
    (((env.kmsSecretKey.isSome = true ∧ env.kesEndpoint.isSome = true) ∨
      (env.kmsMasterKey.isSome = true ∧ env.kesEndpoint.isSome = true)) →
      resolveKMS ops ca env = .error .ambiguous)
    ∧ (∀ out, resolveKMS ops ca env = .ok out →
        (isStaticOutcome out).toNat + (isLegacyOutcome out).toNat
          + (isRemoteOutcome out).toNat + (isNoneOutcome out).toNat = 1
        ∧ isRemoteOutcome out = env.kesEndpoint.isSome
        ∧ isStaticOutcome out = (env.kmsSecretKey.isSome && !env.kesEndpoint.isSome)
        ∧ isLegacyOutcome out = (!env.kmsSecretKey.isSome
            && env.kmsMasterKey.isSome && !env.kesEndpoint.isSome)
        ∧ isNoneOutcome out = (!env.kmsSecretKey.isSome
            && !env.kmsMasterKey.isSome && !env.kesEndpoint.isSome)) := by
  constructor
  · rintro (⟨hS, hK⟩ | ⟨hM, hK⟩)
    · simp [resolveKMS, hS, hK]
    · cases hS : env.kmsSecretKey.isSome <;> simp [resolveKMS, hS, hM, hK]
  · intro out hout
    cases hK : env.kesEndpoint.isSome with
    | true =>
      cases hS : env.kmsSecretKey.isSome with
      | true => rw [resolveKMS, hS, hK] at hout; cases hout
      | false =>
        cases hM : env.kmsMasterKey.isSome with
        | true => simp only [resolveKMS, hS, hM, hK, Bool.and_true, Bool.and_false,
            Bool.false_and, Bool.true_and, if_false, if_true, Bool.false_eq_true,
            reduceIte] at hout; cases hout
        | false =>
          simp only [resolveKMS, hS, hM, hK, Bool.and_true, Bool.and_false,
            Bool.false_and, Bool.true_and, Bool.false_eq_true, reduceIte] at hout
          split at hout
          · cases hout
          · split at hout
            · cases hout
              simp [isStaticOutcome, isLegacyOutcome, isRemoteOutcome,
                isNoneOutcome, hS, hM, hK]
            · cases hout
    | false =>
      cases hS : env.kmsSecretKey.isSome with
      | true =>
        simp only [resolveKMS, hS, hK, Bool.and_true, Bool.and_false,
          Bool.false_and, Bool.true_and, Bool.false_eq_true, reduceIte] at hout
        split at hout
        · cases hout
        · rename_i kms0 heq
          cases hout
          split at heq
          · cases heq
            simp [isStaticOutcome, isLegacyOutcome, isRemoteOutcome,
              isNoneOutcome, hS, hK]
          · cases heq
      | false =>
        cases hM : env.kmsMasterKey.isSome with
        | true =>
          simp only [resolveKMS, hS, hM, hK, Bool.and_true, Bool.and_false,
            Bool.false_and, Bool.true_and, Bool.false_eq_true, reduceIte] at hout
          split at hout
          · cases hout
          · rename_i kms0 heq
            cases hout
            split at heq
            · cases heq
            · split at heq
              · cases heq
              · split at heq
                · cases heq
                  simp [isStaticOutcome, isLegacyOutcome, isRemoteOutcome,
                    isNoneOutcome, hS, hM, hK]
                · cases heq
        | false =>
          simp only [resolveKMS, hS, hM, hK, Bool.and_true, Bool.and_false,
            Bool.false_and, Bool.true_and, Bool.false_eq_true, reduceIte] at hout
          cases hout
          simp [isStaticOutcome, isLegacyOutcome, isRemoteOutcome,
            isNoneOutcome, hS, hM, hK]

/-- Witness for C1: with both the static secret key and the remote
endpoint present the resolution is the fatal ambiguity error, and with
only the static secret key present the outcome is the static-secret
variant. -/
theorem kms_resolution_exclusive_witness :
    resolveKMS ⟨fun _ => true, fun _ => none, fun _ _ => false, fun _ => none,
        fun _ => false⟩ "/certs/CAs"
      ⟨some "key", none, some "https:kes", none, none, none, none⟩
      = .error .ambiguous
    ∧ isStaticOutcome (.staticSecret "key") = true := by
  constructor
  · exact (kms_resolution_exclusive
      ⟨fun _ => true, fun _ => none, fun _ _ => false, fun _ => none, fun _ => false⟩
      "/certs/CAs"
      ⟨some "key", none, some "https:kes", none, none, none, none⟩).1
      (Or.inl ⟨rfl, rfl⟩)
  · exact ((kms_resolution_exclusive
      ⟨fun _ => true, fun _ => none, fun _ _ => false, fun _ => none, fun _ => false⟩
      "/certs/CAs"
      ⟨some "key", none, none, none, none, none, none⟩).2
      (.staticSecret "key") rfl).2.2.1

/-! ### CertificateTopologyLoader (`getTLSConfig`, lines 394-470)

A directory entry is modelled by the facts the scan loop queries about
it: its name, `Mode().IsRegular()`, the symlink bit, the result of
`os.Stat` on its joined path (`none` = error, `some b` = target with
`IsDir() = b`), the presence of `public.crt` and `private.key` inside it
(`isFile`, repository code outside this slice, modelled as per-entry
booleans), and whether `manager.AddCertificate` succeeds on its pair.
The root-level collaborators (`config.ParsePublicCertFile`,
`certs.NewManager`, `os.Open`, `Readdir`) are `Except`-valued fields of
the environment. -/

structure DirEntry where
  name : String
  isRegular : Bool
  isSymlink : Bool
  statTarget : Option Bool
  hasPublicCrt : Bool
  hasPrivateKey : Bool
  addCertOk : Bool
deriving DecidableEq

inductive EntryOutcome where
  | skipped
  | added (label : String)
  | warned (label : String)
deriving DecidableEq

/-- The tail of the loop body (lines 456-466): check `public.crt` and
`private.key`, then try `manager.AddCertificate`; a failure there is
logged (a warning) and the loop continues. -/
def checkFilesAndAdd (e : DirEntry) : EntryOutcome :=
  if !e.hasPublicCrt || !e.hasPrivateKey then .skipped
  else if e.addCertOk then .added e.name
  else .warned e.name

/-- One iteration of the `files` loop (lines 437-467). -/
def processEntry (e : DirEntry) : EntryOutcome :=
  if e.isRegular || e.name == "CAs" || startsWithDotDot e.name then .skipped
  else if e.isSymlink then
    match e.statTarget with
    | none => .skipped
    | some isDir => if isDir then checkFilesAndAdd e else .skipped
  else checkFilesAndAdd e

structure ScanResult where
  added : List String
  warnings : List String
deriving DecidableEq

def scanStep (r : ScanResult) (e : DirEntry) : ScanResult :=
  match processEntry e with
  | .skipped => r
  | .added l => { r with added := r.added ++ [l] }
  | .warned l => { r with warnings := r.warnings ++ [l] }

def scanEntries (entries : List DirEntry) : ScanResult :=
  entries.foldl scanStep ⟨[], []⟩

structure TLSEnv where
  rootPublicCertIsFile : Bool
  rootPrivateKeyIsFile : Bool
  parsePublicCert : Except String Unit
  newManager : Except String Unit
  openRoot : Except String Unit
  readdir : Except String (List DirEntry)

inductive TLSResult where
  | notConfigured
  | configured (scan : ScanResult)
deriving DecidableEq

/-- Model of `getTLSConfig`: not-configured when either root file is
missing, then root cert parse, manager construction, directory open and
enumeration (each fatal), then the per-entry scan; on success secure
mode is on and the manager holds the root pair plus the added labels. -/
def getTLSConfig (env : TLSEnv) : Except String TLSResult :=
  if !(env.rootPublicCertIsFile && env.rootPrivateKeyIsFile) then .ok .notConfigured
  else
    match env.parsePublicCert with
    | .error e => .error e
    | .ok _ =>
      match env.newManager with
      | .error e => .error e
      | .ok _ =>
        match env.openRoot with
        | .error e => .error e
        | .ok _ =>
          match env.readdir with
          | .error e => .error e
          | .ok files => .ok (.configured (scanEntries files))

def entryAdded (e : DirEntry) : List String :=
  match processEntry e with
  | .added l => [l]
  | _ => []

def entryWarned (e : DirEntry) : List String :=
  match processEntry e with
  | .warned l => [l]
  | _ => []

theorem foldl_scanStep_added (l : List DirEntry) (r : ScanResult) :
    (l.foldl scanStep r).added = r.added ++ (l.map entryAdded).flatten := by
  induction l generalizing r with
  | nil => simp
  | cons e es ih =>
    rw [List.foldl_cons, ih]
    cases hp : processEntry e <;>
      simp [scanStep, entryAdded, hp, List.append_assoc]

theorem foldl_scanStep_warnings (l : List DirEntry) (r : ScanResult) :
    (l.foldl scanStep r).warnings = r.warnings ++ (l.map entryWarned).flatten := by
  induction l generalizing r with
  | nil => simp
  | cons e es ih =>
    rw [List.foldl_cons, ih]
    cases hp : processEntry e <;>
      simp [scanStep, entryWarned, hp, List.append_assoc]

theorem scanResult_ext (r1 r2 : ScanResult) (h1 : r1.added = r2.added)
    (h2 : r1.warnings = r2.warnings) : r1 = r2 := by
  cases r1
  cases r2
  cases h1
  cases h2
  rfl

theorem scanEntries_added (l : List DirEntry) :
    (scanEntries l).added = (l.map entryAdded).flatten := by
  simp [scanEntries, foldl_scanStep_added]

theorem scanEntries_warnings (l : List DirEntry) :
    (scanEntries l).warnings = (l.map entryWarned).flatten := by
  simp [scanEntries, foldl_scanStep_warnings]

/-- C4: an entry that is a regular file, named "CAs", dot-dot prefixed,
a symlink whose resolution fails or whose target is not a directory, or
a directory missing `public.crt` or `private.key`, is skipped and
contributes nothing to the scan result. -/
theorem scan_exclusions (l1 l2 : List DirEntry) (e : DirEntry)
    (h : e.isRegular = true ∨ e.name = "CAs" ∨ startsWithDotDot e.name = true
      ∨ (e.isSymlink = true ∧ (e.statTarget = none ∨ e.statTarget = some false))
      ∨ e.hasPublicCrt = false ∨ e.hasPrivateKey = false) :
    processEntry e = .skipped
    ∧ scanEntries (l1 ++ e :: l2) = scanEntries (l1 ++ l2) := by
  have hp : processEntry e = .skipped := by
    have hfiles : e.hasPublicCrt = false ∨ e.hasPrivateKey = false →
        checkFilesAndAdd e = .skipped := by
      intro hf
      rcases hf with hf | hf <;> simp [checkFilesAndAdd, hf]
    rcases h with h | h | h | ⟨h1, h2⟩ | h | h
    · simp [processEntry, h]
    · simp [processEntry, h]
    · simp [processEntry, h]
    · cases hg : (e.isRegular || e.name == "CAs" || startsWithDotDot e.name) <;>
        rcases h2 with h2 | h2 <;>
          simp [processEntry, hg, h1, h2]
    · cases hg : (e.isRegular || e.name == "CAs" || startsWithDotDot e.name)
      · cases hl : e.isSymlink
        · simp [processEntry, hg, hl, hfiles (Or.inl h)]
        · cases ht : e.statTarget with
          | none => simp [processEntry, hg, hl, ht]
          | some b => cases b <;> simp [processEntry, hg, hl, ht, hfiles (Or.inl h)]
      · simp [processEntry, hg]
    · cases hg : (e.isRegular || e.name == "CAs" || startsWithDotDot e.name)
      · cases hl : e.isSymlink
        · simp [processEntry, hg, hl, hfiles (Or.inr h)]
        · cases ht : e.statTarget with
          | none => simp [processEntry, hg, hl, ht]
          | some b => cases b <;> simp [processEntry, hg, hl, ht, hfiles (Or.inr h)]
      · simp [processEntry, hg]
  refine ⟨hp, ?_⟩
  have e1 : entryAdded e = [] := by simp [entryAdded, hp]
  have e2 : entryWarned e = [] := by simp [entryWarned, hp]
  refine scanResult_ext _ _ ?_ ?_
  · simp [scanEntries_added, e1]
  · simp [scanEntries_warnings, e2]

/-- Witness for C4: the reserved "CAs" directory entry contributes
nothing even though it has both certificate files. -/
theorem scan_exclusions_witness :
    processEntry ⟨"CAs", false, false, none, true, true, true⟩ = .skipped
    ∧ scanEntries [⟨"CAs", false, false, none, true, true, true⟩] = scanEntries [] :=
  scan_exclusions [] [] ⟨"CAs", false, false, none, true, true, true⟩
    (Or.inr (Or.inl rfl))

/-- C5: a per-entry AddCertificate failure is recorded as a warning and
skipped without aborting the scan (the whole operation still succeeds
when the root steps succeed), whereas a failure of the root certificate
parse, the manager construction seeded with the root pair, or the root
directory open/enumerate makes the whole operation return an error. -/
theorem tls_error_semantics (env : TLSEnv) :
    (∀ entries, env.rootPublicCertIsFile = true → env.rootPrivateKeyIsFile = true →
      env.parsePublicCert = .ok () → env.newManager = .ok () → env.openRoot = .ok () →
      env.readdir = .ok entries →
      getTLSConfig env = .ok (.configured (scanEntries entries)))
    ∧ (∀ (e : DirEntry) (l1 l2 : List DirEntry), e.isRegular = false →
        e.name ≠ "CAs" → startsWithDotDot e.name = false →
        (e.isSymlink = true → e.statTarget = some true) →
        e.hasPublicCrt = true → e.hasPrivateKey = true → e.addCertOk = false →
        processEntry e = .warned e.name
        ∧ (scanEntries (l1 ++ e :: l2)).added = (scanEntries (l1 ++ l2)).added
        ∧ e.name ∈ (scanEntries (l1 ++ e :: l2)).warnings)
    ∧ (env.rootPublicCertIsFile = true → env.rootPrivateKeyIsFile = true →
        (∀ er, env.parsePublicCert = .error er → getTLSConfig env = .error er)
        ∧ (∀ er, env.parsePublicCert = .ok () → env.newManager = .error er →
            getTLSConfig env = .error er)
        ∧ (∀ er, env.parsePublicCert = .ok () → env.newManager = .ok () →
            env.openRoot = .error er → getTLSConfig env = .error er)
        ∧ (∀ er, env.parsePublicCert = .ok () → env.newManager = .ok () →
            env.openRoot = .ok () → env.readdir = .error er →
            getTLSConfig env = .error er)) := by
  refine ⟨?_, ?_, ?_⟩
  · intro entries h1 h2 h3 h4 h5 h6
    simp [getTLSConfig, h1, h2, h3, h4, h5, h6]
  · intro e l1 l2 h1 h2 h3 h4 h5 h6 h7
    have hw : processEntry e = .warned e.name := by
      have hc : checkFilesAndAdd e = .warned e.name := by
        simp [checkFilesAndAdd, h5, h6, h7]
      cases hl : e.isSymlink
      · simp [processEntry, h1, h2, h3, hl, hc]
      · simp [processEntry, h1, h2, h3, hl, h4 hl, hc]
    refine ⟨hw, ?_, ?_⟩
    · have e1 : entryAdded e = [] := by simp [entryAdded, hw]
      simp [scanEntries_added, e1]
    · have e2 : entryWarned e = [e.name] := by simp [entryWarned, hw]
      simp [scanEntries_warnings, e2]
  · intro h1 h2
    refine ⟨?_, ?_, ?_, ?_⟩
    · intro er hp
      simp [getTLSConfig, h1, h2, hp]
    · intro er hp hm
      simp [getTLSConfig, h1, h2, hp, hm]
    · intro er hp hm ho
      simp [getTLSConfig, h1, h2, hp, hm, ho]
    · intro er hp hm ho hr
      simp [getTLSConfig, h1, h2, hp, hm, ho, hr]

/-- Witness for C5: one candidate directory whose AddCertificate fails
yields a successful load with that label warned, not added. -/
theorem tls_error_semantics_witness :
    getTLSConfig ⟨true, true, .ok (), .ok (), .ok (),
        .ok [⟨"x.com", false, false, none, true, true, false⟩]⟩
      = .ok (.configured (scanEntries [⟨"x.com", false, false, none, true, true, false⟩]))
    ∧ "x.com" ∈ (scanEntries ([] ++ ⟨"x.com", false, false, none, true, true, false⟩ :: [])).warnings := by
  constructor
  · exact (tls_error_semantics ⟨true, true, .ok (), .ok (), .ok (),
      .ok [⟨"x.com", false, false, none, true, true, false⟩]⟩).1
      [⟨"x.com", false, false, none, true, true, false⟩] rfl rfl rfl rfl rfl rfl
  · exact ((tls_error_semantics ⟨true, true, .ok (), .ok (), .ok (),
      .ok [⟨"x.com", false, false, none, true, true, false⟩]⟩).2.1
      ⟨"x.com", false, false, none, true, true, false⟩ [] []
      rfl (by decide) rfl (fun h => by cases h) rfl rfl rfl).2.2

/-- C6: when the certs root directory lacks the root public certificate
or the root private key, the loader reports not-configured with no
error and builds no manager. -/
theorem tls_not_configured (env : TLSEnv)
    (h : (env.rootPublicCertIsFile && env.rootPrivateKeyIsFile) = false) :
    getTLSConfig env = .ok .notConfigured := by
  simp [getTLSConfig, h]

/-- Witness for C6: a root directory with no private key. -/
theorem tls_not_configured_witness :
    getTLSConfig ⟨true, false, .ok (), .ok (), .ok (), .ok []⟩ = .ok .notConfigured :=
  tls_not_configured ⟨true, false, .ok (), .ok (), .ok (), .ok []⟩ rfl

def fooEntry : DirEntry := ⟨"foo.com", false, false, none, true, true, true⟩

def barEntry : DirEntry := ⟨"bar.com", false, false, none, true, false, true⟩

def tlsEnvC7 : TLSEnv :=
  { rootPublicCertIsFile := true
    rootPrivateKeyIsFile := true
    parsePublicCert := .ok ()
    newManager := .ok ()
    openRoot := .ok ()
    readdir := .ok [fooEntry, barEntry] }

/-- C7 counterexample: with the root pair present, `foo.com` complete
and `bar.com` missing `private.key`, the loader succeeds with only
`foo.com` added — but `bar.com` is skipped silently (line 460-462
`continue` without logging), so the number of warnings is 0, not the
claimed exactly one. -/
theorem tls_c7_counterexample :
    getTLSConfig tlsEnvC7
      = .ok (.configured { added := ["foo.com"], warnings := [] })
    ∧ ¬((scanEntries [fooEntry, barEntry]).warnings.length = 1) := by
  exact ⟨rfl, by decide⟩

/-- C7 (amended): in that scenario the loader returns a manager holding
the root pair and `foo.com` only, with no fatal error, and `bar.com` is
skipped silently with no warning logged. -/
theorem tls_c7_amended :
    getTLSConfig tlsEnvC7
      = .ok (.configured { added := ["foo.com"], warnings := [] })
    ∧ processEntry barEntry = .skipped := ⟨rfl, rfl⟩
